import Mathlib

/-!
Verification development for `conteo_hospitalarias.py`, a tabular incident
analyzer.  The Python source is shallowly embedded: each relevant Python
function becomes a Lean definition over `List Char` / `String`, dates become
a `(year, month, day)` triple of naturals, pandas cells become `String`
(respectively `Option String` where the code checks `pd.isna`), and the
aggregation section of `main` becomes a pure function from a configured
table to a result value.  The wall clock read by the source at parse time
is passed as an explicit `now` parameter.
-/

set_option maxRecDepth 4096

/-- Python `str.isspace` / `\s` whitespace set (ASCII whitespace, the C0
separator block, and the Unicode space characters), used by `str.strip()`
and by the `re.sub(r'\s+', ' ', ...)` collapse in `parsear_fecha`. -/
def isPyWs (c : Char) : Bool :=
  (9 ≤ c.toNat && c.toNat ≤ 13) || (28 ≤ c.toNat && c.toNat ≤ 31) ||
  c.toNat = 32 || c.toNat = 133 || c.toNat = 160 || c.toNat = 5760 ||
  (8192 ≤ c.toNat && c.toNat ≤ 8202) || c.toNat = 8232 || c.toNat = 8233 ||
  c.toNat = 8239 || c.toNat = 8287 || c.toNat = 12288

/-- Python `str.strip()` on a character list: drop leading and trailing
whitespace. -/
def pyStripL (l : List Char) : List Char :=
  ((l.dropWhile isPyWs).reverse.dropWhile isPyWs).reverse

/-- Helper for `collapseWs`: the flag records whether the previous character
was whitespace (so that a run contributes a single `' '`). -/
def collapseWsAux : Bool → List Char → List Char
  | _, [] => []
  | prevWs, c :: rest =>
    if isPyWs c then
      if prevWs then collapseWsAux true rest
      else ' ' :: collapseWsAux true rest
    else c :: collapseWsAux false rest

/-- `re.sub(r'\s+', ' ', s)`: every maximal whitespace run becomes one
space. -/
def collapseWs (l : List Char) : List Char :=
  collapseWsAux false l

/-- Case-mapping table for Python `str.lower()`, restricted to the ASCII
letters plus the Latin-1 letters that occur in the repository's Spanish
data.  (Python lowers the full Unicode range; only these rows are ever
reached by the claims and by `limpiar_texto`, which lower-cases after
discarding non-ASCII.) -/
def lowerTable : List (Char × Char) :=
  [('A','a'),('B','b'),('C','c'),('D','d'),('E','e'),('F','f'),('G','g'),
   ('H','h'),('I','i'),('J','j'),('K','k'),('L','l'),('M','m'),('N','n'),
   ('O','o'),('P','p'),('Q','q'),('R','r'),('S','s'),('T','t'),('U','u'),
   ('V','v'),('W','w'),('X','x'),('Y','y'),('Z','z'),
   ('Á','á'),('É','é'),('Í','í'),('Ó','ó'),('Ú','ú'),('Ü','ü'),('Ñ','ñ'),
   ('À','à'),('È','è'),('Ì','ì'),('Ò','ò'),('Ù','ù')]

/-- Python `str.lower()` on one character (see `lowerTable`). -/
def pyLowerChar (c : Char) : Char :=
  (lowerTable.lookup c).getD c

/-- Case-mapping table for Python `str.upper()` (same coverage remarks as
`lowerTable`). -/
def upperTable : List (Char × Char) :=
  [('a','A'),('b','B'),('c','C'),('d','D'),('e','E'),('f','F'),('g','G'),
   ('h','H'),('i','I'),('j','J'),('k','K'),('l','L'),('m','M'),('n','N'),
   ('o','O'),('p','P'),('q','Q'),('r','R'),('s','S'),('t','T'),('u','U'),
   ('v','V'),('w','W'),('x','X'),('y','Y'),('z','Z'),
   ('á','Á'),('é','É'),('í','Í'),('ó','Ó'),('ú','Ú'),('ü','Ü'),('ñ','Ñ'),
   ('à','À'),('è','È'),('ì','Ì'),('ò','Ò'),('ù','Ù')]

/-- Python `str.upper()` on one character. -/
def pyUpperChar (c : Char) : Char :=
  (upperTable.lookup c).getD c

/-- Unicode canonical decomposition (NFD) table for the accented Latin
letters reachable in the repository's data; every character not listed is
its own (one-element) decomposition, exactly as NFD leaves `€`, CJK
ideographs, and all ASCII untouched. -/
def nfdTable : List (Char × List Char) :=
  [('á', ['a', '́']), ('é', ['e', '́']), ('í', ['i', '́']),
   ('ó', ['o', '́']), ('ú', ['u', '́']), ('ü', ['u', '̈']),
   ('ñ', ['n', '̃']),
   ('Á', ['A', '́']), ('É', ['E', '́']), ('Í', ['I', '́']),
   ('Ó', ['O', '́']), ('Ú', ['U', '́']), ('Ü', ['U', '̈']),
   ('Ñ', ['N', '̃']),
   ('à', ['a', '̀']), ('è', ['e', '̀']), ('ì', ['i', '̀']),
   ('ò', ['o', '̀']), ('ù', ['u', '̀'])]

/-- `unicodedata.normalize('NFD', ·)` on one character (see `nfdTable`). -/
def nfdChar (c : Char) : List Char :=
  (nfdTable.lookup c).getD [c]

/-- `limpiar_texto` from the source, on the character list:
`strip`, NFD-decompose, `.encode('ascii','ignore')` (keep code points
below 128), `.lower()`, `strip` again. -/
def limpiarL (l : List Char) : List Char :=
  pyStripL ((((pyStripL l).flatMap nfdChar).filter
    (fun c => decide (c.toNat < 128))).map pyLowerChar)

/-- `limpiar_texto(texto)` for a string argument (the source returns
non-string arguments unchanged; its `except` fallback is unreachable for
strings). -/
def limpiar_texto (s : String) : String :=
  ⟨limpiarL s.data⟩

/-- A calendar date, as the `(year, month, day)` part of a Python
`datetime`.  The time-of-day never matters for the embedded code:
`strptime` results are at midnight, and comparisons against the
year-incremented wall clock reduce to date comparisons. -/
structure PDate where
  y : Nat
  m : Nat
  d : Nat
deriving DecidableEq, Repr

/-- `datetime` order (lexicographic on year, month, day), non-strict. -/
def pdLe (a b : PDate) : Bool :=
  if a.y < b.y then true
  else if b.y < a.y then false
  else if a.m < b.m then true
  else if b.m < a.m then false
  else a.d ≤ b.d

/-- `datetime` order, strict. -/
def pdLt (a b : PDate) : Bool :=
  pdLe a b && !(a = b)

/-- Gregorian leap-year rule used by `datetime`. -/
def esBisiesto (y : Nat) : Bool :=
  y % 4 = 0 && (y % 100 ≠ 0 || y % 400 = 0)

/-- Days in a month, as validated by the `datetime` constructor. -/
def daysInMonth (y m : Nat) : Nat :=
  if m = 2 then (if esBisiesto y then 29 else 28)
  else if m = 4 || m = 6 || m = 9 || m = 11 then 30
  else 31

/-- The dates the `datetime` constructor accepts (`MINYEAR = 1`,
`MAXYEAR = 9999`). -/
def validDate (d : PDate) : Bool :=
  1 ≤ d.y && d.y ≤ 9999 && 1 ≤ d.m && d.m ≤ 12 && 1 ≤ d.d &&
  d.d ≤ daysInMonth d.y d.m

/-- Numeric value of a digit string. -/
def digitsVal (l : List Char) : Nat :=
  l.foldl (fun n c => n * 10 + (c.toNat - 48)) 0

/-- `strptime` `%d` field: one or two digits, value 1–31 (the regex
`3[01]|[12]\d|0[1-9]|[1-9]`). -/
def parseDayField (l : List Char) : Option Nat :=
  if (l.length = 1 || l.length = 2) && l.all Char.isDigit then
    let v := digitsVal l
    if 1 ≤ v && v ≤ 31 then some v else none
  else none

/-- `strptime` `%m` field: one or two digits, value 1–12. -/
def parseMonthNumField (l : List Char) : Option Nat :=
  if (l.length = 1 || l.length = 2) && l.all Char.isDigit then
    let v := digitsVal l
    if 1 ≤ v && v ≤ 12 then some v else none
  else none

/-- `strptime` `%Y` field: exactly four digits. -/
def parseY4Field (l : List Char) : Option Nat :=
  if l.length = 4 && l.all Char.isDigit then some (digitsVal l) else none

/-- `strptime` `%y` field: exactly two digits; values 00–68 are mapped to
2000–2068 and 69–99 to 1969–1999, as CPython's `_strptime` does. -/
def parseY2Field (l : List Char) : Option Nat :=
  if l.length = 2 && l.all Char.isDigit then
    let v := digitsVal l
    some (if v ≤ 68 then 2000 + v else 1900 + v)
  else none

/-- English (C locale) abbreviated month names for `%b`. -/
def mesesAbrev : List (List Char) :=
  (["jan","feb","mar","apr","may","jun",
    "jul","aug","sep","oct","nov","dec"]).map String.data

/-- English (C locale) full month names for `%B`. -/
def mesesCompletos : List (List Char) :=
  (["january","february","march","april","may","june","july",
    "august","september","october","november","december"]).map String.data

/-- Index of a (case-insensitively matched) month name in a name list,
1-based. -/
def monthNameIdx (names : List (List Char)) (l : List Char) : Option Nat :=
  match names.indexOf? (l.map pyLowerChar) with
  | some i => some (i + 1)
  | none => none

/-- How the month field of a format is written. -/
inductive MonKind | num | abbrev3 | full
deriving DecidableEq, Repr

/-- Field order of a format. -/
inductive OrdKind | dmy | mdy | ymd
deriving DecidableEq, Repr

/-- One `strptime` pattern of the source's `formatos` list: a separator
character, a field order, whether the year is two-digit (`%y`), and how
the month is written. -/
structure DFmt where
  sep : Char
  ord : OrdKind
  y2 : Bool
  mon : MonKind
deriving DecidableEq, Repr

/-- The source's `formatos` list, in order:
`'%d/%m/%Y', '%d/%m/%y', '%Y-%m-%d', '%d-%m-%Y', '%m/%d/%Y', '%m/%d/%y',
'%Y/%m/%d', '%d.%m.%Y', '%d %m %Y', '%d %b %Y', '%d %B %Y'`. -/
def formatos : List DFmt :=
  [⟨'/', .dmy, false, .num⟩, ⟨'/', .dmy, true, .num⟩,
   ⟨'-', .ymd, false, .num⟩, ⟨'-', .dmy, false, .num⟩,
   ⟨'/', .mdy, false, .num⟩, ⟨'/', .mdy, true, .num⟩,
   ⟨'/', .ymd, false, .num⟩, ⟨'.', .dmy, false, .num⟩,
   ⟨' ', .dmy, false, .num⟩, ⟨' ', .dmy, false, .abbrev3⟩,
   ⟨' ', .dmy, false, .full⟩]

/-- Split a character list at every occurrence of `sep` (fields of a
`strptime` pattern are digit or letter runs, so separator-splitting agrees
with the pattern regex). -/
def splitSep (sep : Char) : List Char → List (List Char)
  | [] => [[]]
  | c :: rest =>
    if c = sep then [] :: splitSep sep rest
    else match splitSep sep rest with
      | part :: parts => (c :: part) :: parts
      | [] => [[c]]

/-- Month field parse, by kind. -/
def parseMonField : MonKind → List Char → Option Nat
  | .num, l => parseMonthNumField l
  | .abbrev3, l => monthNameIdx mesesAbrev l
  | .full, l => monthNameIdx mesesCompletos l

/-- `datetime.strptime(t, fmt)` for one pattern of `formatos`: split at the
separator into exactly three fields, read them in the pattern's order, and
validate the resulting calendar date (the `datetime` constructor raises
`ValueError` on an impossible day, which `strptime` propagates). -/
def tryFormat (fmt : DFmt) (t : List Char) : Option PDate :=
  match splitSep fmt.sep t with
  | [a, b, c] =>
    let fields : List Char × List Char × List Char :=
      match fmt.ord with
      | .dmy => (a, b, c)
      | .mdy => (b, a, c)
      | .ymd => (c, b, a)
    match parseDayField fields.1, parseMonField fmt.mon fields.2.1,
          (if fmt.y2 then parseY2Field else parseY4Field) fields.2.2 with
    | some d, some m, some y =>
      if validDate ⟨y, m, d⟩ then some ⟨y, m, d⟩ else none
    | _, _, _ => none
  | _ => none

/-- The in-loop acceptance test of `parsear_fecha`:
`parsed.year >= 2000 and parsed <= datetime.now().replace(year=datetime.now().year + 1)`.
When `now` is Feb 29 and the incremented year is not leap, `replace`
raises `ValueError`, the `except` swallows it and the loop continues —
that is, the test fails. -/
def razonable (now parsed : PDate) : Bool :=
  decide (2000 ≤ parsed.y) && validDate ⟨now.y + 1, now.m, now.d⟩ &&
  pdLe parsed ⟨now.y + 1, now.m, now.d⟩

/-- The `for fmt in formatos` loop of `parsear_fecha`: the first pattern
whose parse exists and passes `razonable` is returned; otherwise `None`. -/
def tryFormats (now : PDate) : List DFmt → List Char → Option PDate
  | [], _ => none
  | fmt :: rest, t =>
    match tryFormat fmt t with
    | some parsed =>
      if razonable now parsed then some parsed else tryFormats now rest t
    | none => tryFormats now rest t

/-- `parsear_fecha(fecha)` for a string cell, with the wall clock passed
explicitly: empty string returns `None`; otherwise the input is stripped,
internal whitespace runs are collapsed, and the `formatos` loop runs.
(The `pd.isna`/`None` and `datetime`-instance early returns of the source
concern non-string cells, outside this string-typed embedding.) -/
def parsear_fecha (s : String) (now : PDate) : Option PDate :=
  if s = "" then none
  else tryFormats now formatos (collapseWs (pyStripL s.data))

/-- An unnormalized decimal value `(-1)^neg · mant · 10^exp` — the exact
value of a parsed decimal literal, kept in a computation-friendly form
(see `decValQ` for the denoted rational). -/
structure DecMant where
  neg : Bool
  mant : Nat
  exp : Int
deriving DecidableEq, Repr

/-- Result of Python `float(...)`: a finite value (modelled as the exact
rational value of the literal; IEEE-754 rounding is outside this
embedding), an infinity, or a NaN. -/
inductive PyFloat
  | num (v : DecMant)
  | inf (pos : Bool)
  | nan
deriving DecidableEq, Repr

/-- `f > 0` for a parsed float (`nan > 0` is false in Python); see
`pyFloatGtZero_correct` for the connection with the literal's rational
value. -/
def pyFloatGtZero : PyFloat → Bool
  | .num v => !v.neg && decide (0 < v.mant)
  | .inf pos => pos
  | .nan => false

/-- Strip one optional leading sign; returns (isNegative, rest). -/
def readSign : List Char → Bool × List Char
  | '+' :: r => (false, r)
  | '-' :: r => (true, r)
  | l => (false, l)

/-- `10 ^ e` over ℚ for an integer exponent, without `zpow`. -/
def pow10Q : Int → ℚ
  | .ofNat n => (10 : ℚ) ^ n
  | .negSucc n => 1 / (10 : ℚ) ^ (n + 1)

/-- The rational value denoted by a `DecMant`. -/
def decValQ (v : DecMant) : ℚ :=
  let m : ℚ := (v.mant : ℚ) * pow10Q v.exp
  if v.neg then -m else m

/-- The `DecMant` of a decimal literal: integer digits `ip`, fraction
digits `fp`, written exponent `e`, sign `neg`; the denoted value is
`ip.fp × 10^e`. -/
def mkDec (neg : Bool) (ip fp : List Char) (e : Int) : DecMant :=
  ⟨neg, digitsVal ip * 10 ^ fp.length + digitsVal fp, e - fp.length⟩

/-- Finish a `float()` parse after the mantissa: an empty rest, or an
exponent `e`/`E`, an optional sign, and at least one digit. -/
def finishFloat (neg : Bool) (ip fp : List Char) : List Char → Option PyFloat
  | [] => some (.num (mkDec neg ip fp 0))
  | c :: r =>
    if c = 'e' || c = 'E' then
      let sr := readSign r
      if sr.2 ≠ [] && sr.2.all Char.isDigit then
        some (.num (mkDec neg ip fp
          (if sr.1 then -(digitsVal sr.2 : Int) else (digitsVal sr.2 : Int))))
      else none
    else none

/-- Python `float(s)` on an already-stripped string: optional sign, then
`inf`/`infinity`/`nan` (case-insensitive) or a decimal literal
`digits [. digits] [exponent]` with at least one mantissa digit.
(Digit-group underscores, accepted by CPython, are not modelled.) -/
def pyFloatParse (l : List Char) : Option PyFloat :=
  let sr := readSign l
  let low := sr.2.map pyLowerChar
  if low = "inf".data || low = "infinity".data then some (.inf (!sr.1))
  else if low = "nan".data then some .nan
  else
    let ipr := sr.2.span Char.isDigit
    match ipr.2 with
    | '.' :: rest =>
      let fpr := rest.span Char.isDigit
      if ipr.1 = [] && fpr.1 = [] then none
      else finishFloat sr.1 ipr.1 fpr.1 fpr.2
    | other =>
      if ipr.1 = [] then none else finishFloat sr.1 ipr.1 [] other

/-- The source's `afirmativos` token list. -/
def afirmativos : List (List Char) :=
  (["sí", "si", "s", "yes", "true", "1", "verdadero",
    "afirmativo", "x", "✓", "check", "checked", "ok",
    "aceptar", "confirmado", "realizado"]).map String.data

/-- `es_traslado_afirmativo(valor)`: `None`/NaN cells are negative;
otherwise the trimmed lower-cased string form is tested — a successful
numeric parse strictly greater than zero is affirmative, anything else
falls through to membership in `afirmativos`. -/
def es_traslado_afirmativo (valor : Option String) : Bool :=
  match valor with
  | none => false
  | some s =>
    let t := (pyStripL s.data).map pyLowerChar
    match pyFloatParse t with
    | some f => if pyFloatGtZero f then true else decide (t ∈ afirmativos)
    | none => decide (t ∈ afirmativos)

/-- One row of the uploaded table, restricted to the four user-designated
role columns of `main`: incident type, hospital-transfer flag (an
`Option` because the code guards it with `pd.isna`), date text, and the
medical-services category cell (`astype(str)` renders null cells as the
string `"nan"`, so it is a plain `String`). -/
structure Record where
  incidente : String
  traslado : Option String
  fecha : String
  sm : String
deriving DecidableEq, Repr

/-- Increment the tally entry of `v`, appending a fresh entry when `v` is
new (first-seen key order). -/
def bump : List (String × Nat) → String → List (String × Nat)
  | [], v => [(v, 1)]
  | (k, n) :: rest, v =>
    if k = v then (k, n + 1) :: rest else (k, n) :: bump rest v

/-- Occurrence tally of a label list, keys in first-seen order. -/
def tally (l : List String) : List (String × Nat) :=
  l.foldl bump []

/-- Insert an entry into a count-descending list, after every entry with a
count at least as large (so earlier-inserted ties stay first). -/
def insertDesc (p : String × Nat) : List (String × Nat) → List (String × Nat)
  | [] => [p]
  | q :: rest => if q.2 < p.2 then p :: q :: rest else q :: insertDesc p rest

/-- Stable sort by descending count. -/
def sortCountDesc (t : List (String × Nat)) : List (String × Nat) :=
  t.foldl (fun acc p => insertDesc p acc) []

/-- `pandas.Series.value_counts()`: distinct values with their occurrence
counts, sorted by descending count.  (pandas breaks count ties with an
unstable sort; this embedding keeps first-seen order among ties.  No
claim depends on the tie order.) -/
def valueCounts (l : List String) : List (String × Nat) :=
  sortCountDesc (tally l)

/-- The date filter of `main` (lines 374–379): keep a record when its
date cell parses (`dropna`) to a date inside the inclusive range. -/
def inRange (now a b : PDate) (r : Record) : Bool :=
  match parsear_fecha r.fecha now with
  | some d => pdLe a d && pdLe d b
  | none => false

/-- Count of affirmative transfer flags over a record list
(`.apply(es_traslado_afirmativo).sum()`). -/
def countTraslados (recs : List Record) : Nat :=
  (recs.filter (fun r => es_traslado_afirmativo r.traslado)).length

/-- The normalized category cell: `astype(str).str.strip().str.upper()`
(line 403). -/
def smNorm (r : Record) : List Char :=
  (pyStripL r.sm.data).map pyUpperChar

/-- `df_sm` (line 406): records whose normalized category cell equals the
upper-cased user value (`valor_sm.upper()`, not stripped). -/
def dfSMpart (valorSM : String) (recs : List Record) : List Record :=
  recs.filter (fun r => smNorm r == valorSM.data.map pyUpperChar)

/-- `df_no_sm` (line 407): the complement partition. -/
def dfNoSMpart (valorSM : String) (recs : List Record) : List Record :=
  recs.filter (fun r => !(smNorm r == valorSM.data.map pyUpperChar))

/-- Outcome of the report-generation block of `main`: either the
empty-after-filtering error (`st.error` + `return`, lines 384–386), or
the named count tables and the named transfer totals, in insertion
order. -/
inductive AnalysisResult
  | emptyResult
  | ok (conteos : List (String × List (String × Nat)))
       (traslados : List (String × Nat))
deriving DecidableEq, Repr

/-- Lines 368–421 of `main` as a pure function: the optional date filter
(applied only when the checkbox is on and both range endpoints are set),
the empty check, the overall count table and transfer total, and the
optional medical-services split, whose per-partition count tables are
added only for non-empty partitions while its transfer totals are always
added. -/
def runAnalysis (usarFechas : Bool) (inicio fin : Option PDate)
    (incluirSM : Bool) (valorSM : String) (now : PDate)
    (table : List Record) : AnalysisResult :=
  let dfClean :=
    match usarFechas, inicio, fin with
    | true, some a, some b => table.filter (inRange now a b)
    | _, _, _ => table
  if dfClean = [] then .emptyResult
  else
    let conteos0 := [("Total de Incidentes", valueCounts (dfClean.map (·.incidente)))]
    let traslados0 := [("Total de traslados", countTraslados dfClean)]
    if incluirSM then
      let dfSM := dfSMpart valorSM dfClean
      let dfNoSM := dfNoSMpart valorSM dfClean
      let conteos1 := conteos0 ++
        (if dfSM = [] then []
         else [("Incidentes atendidos por Servicios Médicos",
                valueCounts (dfSM.map (·.incidente)))])
      let conteos2 := conteos1 ++
        (if dfNoSM = [] then []
         else [("Incidentes atendidos por Operativa Médica Protección Civil",
                valueCounts (dfNoSM.map (·.incidente)))])
      let traslados1 := traslados0 ++
        [("Traslados por Servicios Médicos", countTraslados dfSM),
         ("Traslados por Operativa Médica Protección Civil", countTraslados dfNoSM)]
      .ok conteos2 traslados1
    else .ok conteos0 traslados0

/-- `datetime.strptime(s.strip(), '%d/%m/%Y')` as used for the range
inputs (lines 326–327): the day-first slash pattern, no plausibility
check. -/
def strptimeDMY (s : String) : Option PDate :=
  tryFormat ⟨'/', .dmy, false, .num⟩ (pyStripL s.data)

/-- Outcome of the date-range input block (lines 324–335).  Crucially, in
the `startAfterEnd` case the source only displays an error: the two
parsed values remain assigned to `fecha_inicio` / `fecha_fin`. -/
inductive RangeParse
  | notGiven
  | formatError (inicio : Option PDate)
  | startAfterEnd (inicio fin : PDate)
  | okRange (inicio fin : PDate)
deriving DecidableEq, Repr

/-- Lines 324–335: both text inputs must be non-empty; the first
`strptime` failure aborts the second assignment (`fecha_fin` stays
`None`); an inverted range is reported but both variables stay set. -/
def parseRange (inicioStr finStr : String) : RangeParse :=
  if inicioStr = "" || finStr = "" then .notGiven
  else
    match strptimeDMY inicioStr with
    | none => .formatError none
    | some a =>
      match strptimeDMY finStr with
      | none => .formatError (some a)
      | some b => if pdLt b a then .startAfterEnd a b else .okRange a b

/-- The values of the `fecha_inicio` / `fecha_fin` variables after the
input block, for each outcome. -/
def rangeVars : RangeParse → Option PDate × Option PDate
  | .notGiven => (none, none)
  | .formatError i => (i, none)
  | .startAfterEnd a b => (some a, some b)
  | .okRange a b => (some a, some b)

/-- The date-input block composed with the report-generation block: what
one press of the "Generar Reporte Completo" button computes. -/
def fullFlow (usarFechas : Bool) (inicioStr finStr : String)
    (incluirSM : Bool) (valorSM : String) (now : PDate)
    (table : List Record) : AnalysisResult :=
  let vars := rangeVars (parseRange inicioStr finStr)
  runAnalysis usarFechas vars.1 vars.2 incluirSM valorSM now table

/-- The count-table list of a successful result. -/
def resultConteos : AnalysisResult → Option (List (String × List (String × Nat)))
  | .emptyResult => none
  | .ok cs _ => some cs

/-- The transfer-summary list of a successful result. -/
def resultTraslados : AnalysisResult → Option (List (String × Nat))
  | .emptyResult => none
  | .ok _ ts => some ts

/-- The overall ("Total de Incidentes") count table of a result. -/
def totalConteo (res : AnalysisResult) : Option (List (String × Nat)) :=
  match res with
  | .ok cs _ => cs.lookup "Total de Incidentes"
  | .emptyResult => none

/-- The date-parse policy as claim C3 words it: the first pattern that
parses the string at all is "the accepted one", and a failed plausibility
check on that parse yields `none` outright.  Written from the claim's
words, to be compared against `parsear_fecha`. -/
def claimFirstParse (t : List Char) : Option PDate :=
  formatos.findSome? (fun fmt => tryFormat fmt t)

/-- Claim C3's parse function (see `claimFirstParse`). -/
def claimParseDate (s : String) (now : PDate) : Option PDate :=
  if s = "" then none
  else
    match claimFirstParse (collapseWs (pyStripL s.data)) with
    | some d => if razonable now d then some d else none
    | none => none

/-- The amended policy, written from the corrected wording: the first
pattern whose parse exists AND passes the plausibility check wins; `none`
only when no pattern yields an acceptable parse. -/
def specParsePrioridad (now : PDate) (t : List Char) : Option PDate :=
  formatos.findSome? (fun fmt =>
    match tryFormat fmt t with
    | some d => if razonable now d then some d else none
    | none => none)

theorem lookup_mem {α : Type} {β : Type} [BEq α] [LawfulBEq α] :
    ∀ (t : List (α × β)) (a : α) (b : β), t.lookup a = some b → (a, b) ∈ t := by
  intro t
  induction t with
  | nil => intro a b h; simp [List.lookup] at h
  | cons p rest ih =>
    intro a b h
    obtain ⟨k, v⟩ := p
    rw [List.lookup_cons] at h
    by_cases hk : a == k
    · simp only [hk] at h
      obtain rfl : v = b := by simpa using h
      obtain rfl : a = k := eq_of_beq hk
      exact List.mem_cons_self _ _
    · simp only [Bool.not_eq_true] at hk
      simp only [hk] at h
      exact List.mem_cons_of_mem _ (ih a b h)

theorem lookup_eq_none {α : Type} {β : Type} [BEq α] [LawfulBEq α] :
    ∀ (t : List (α × β)) (a : α), (∀ p ∈ t, a ≠ p.1) → t.lookup a = none := by
  intro t
  induction t with
  | nil => intro a _; rfl
  | cons p rest ih =>
    intro a h
    obtain ⟨k, v⟩ := p
    rw [List.lookup_cons]
    have hk : (a == k) = false := by
      have := h (k, v) (List.mem_cons_self _ _)
      simpa using this
    simp only [hk]
    exact ih a (fun q hq => h q (List.mem_cons_of_mem _ hq))

theorem pyLowerChar_ascii {c : Char} (h : c.toNat < 128) :
    (pyLowerChar c).toNat < 128 := by
  unfold pyLowerChar
  cases hl : lowerTable.lookup c with
  | none => simpa using h
  | some r =>
    have hm : (c, r) ∈ lowerTable := lookup_mem _ _ _ hl
    have hp : ∀ p ∈ lowerTable, p.1.toNat < 128 → p.2.toNat < 128 := by decide
    simpa using hp (c, r) hm h

theorem pyLowerChar_idem (c : Char) :
    pyLowerChar (pyLowerChar c) = pyLowerChar c := by
  cases hl : lowerTable.lookup c with
  | none =>
    have hc : pyLowerChar c = c := by unfold pyLowerChar; rw [hl]; rfl
    rw [hc, hc]
  | some r =>
    have hc : pyLowerChar c = r := by unfold pyLowerChar; rw [hl]; rfl
    have hm : (c, r) ∈ lowerTable := lookup_mem _ _ _ hl
    have hv : ∀ p ∈ lowerTable, lowerTable.lookup p.2 = none := by decide
    have : pyLowerChar r = r := by
      unfold pyLowerChar; rw [hv (c, r) hm]; rfl
    rw [hc, this]

theorem nfdChar_ascii {c : Char} (h : c.toNat < 128) : nfdChar c = [c] := by
  have hk : ∀ p ∈ nfdTable, 128 ≤ p.1.toNat := by decide
  have hnone : nfdTable.lookup c = none := by
    refine lookup_eq_none _ _ (fun p hp heq => ?_)
    have h2 := hk p hp
    rw [heq] at h
    omega
  unfold nfdChar
  rw [hnone]
  rfl

theorem flatMap_id_of {α : Type} (f : α → List α) :
    ∀ (l : List α), (∀ c ∈ l, f c = [c]) → l.flatMap f = l := by
  intro l
  induction l with
  | nil => intro _; rfl
  | cons a t ih =>
    intro h
    rw [List.flatMap_cons, h a (List.mem_cons_self _ _),
      ih (fun c hc => h c (List.mem_cons_of_mem _ hc))]
    rfl

theorem map_id_of {α : Type} (f : α → α) :
    ∀ (l : List α), (∀ c ∈ l, f c = c) → l.map f = l := by
  intro l
  induction l with
  | nil => intro _; rfl
  | cons a t ih =>
    intro h
    rw [List.map_cons, h a (List.mem_cons_self _ _),
      ih (fun c hc => h c (List.mem_cons_of_mem _ hc))]

theorem pyStripL_sublist (l : List Char) : (pyStripL l).Sublist l := by
  unfold pyStripL
  have h1 : ((l.dropWhile isPyWs).reverse.dropWhile isPyWs).Sublist
      (l.dropWhile isPyWs).reverse := List.dropWhile_sublist _
  have h2 := h1.reverse
  rw [List.reverse_reverse] at h2
  exact h2.trans (List.dropWhile_sublist _)

theorem dropWhile_head_false {α : Type} (p : α → Bool) :
    ∀ (l : List α), l.dropWhile p = [] ∨
      ∃ a t, l.dropWhile p = a :: t ∧ p a = false := by
  intro l
  induction l with
  | nil => left; rfl
  | cons a t ih =>
    rw [List.dropWhile_cons]
    by_cases ha : p a = true
    · rw [if_pos ha]; exact ih
    · rw [if_neg ha]
      right
      exact ⟨a, t, rfl, by simpa using ha⟩

theorem pyStripL_head_not_ws (l : List Char) :
    pyStripL l = [] ∨ ∃ a t, pyStripL l = a :: t ∧ isPyWs a = false := by
  rcases dropWhile_head_false isPyWs l with hA | ⟨a, t, hA, ha⟩
  · left; unfold pyStripL; rw [hA]; rfl
  · unfold pyStripL
    rw [hA, List.reverse_cons, List.dropWhile_append]
    cases hE : (t.reverse.dropWhile isPyWs).isEmpty with
    | true =>
      right
      refine ⟨a, [], ?_, ha⟩
      simp [hE, List.dropWhile_cons, ha]
    | false =>
      right
      refine ⟨a, (t.reverse.dropWhile isPyWs).reverse, ?_, ha⟩
      simp [hE, List.reverse_append]

theorem pyStripL_idem (l : List Char) : pyStripL (pyStripL l) = pyStripL l := by
  have hdw : (pyStripL l).dropWhile isPyWs = pyStripL l := by
    rcases pyStripL_head_not_ws l with h | ⟨a, t, h, ha⟩
    · rw [h]; rfl
    · rw [h, List.dropWhile_cons]; simp [ha]
  have hrev : (pyStripL l).reverse = (l.dropWhile isPyWs).reverse.dropWhile isPyWs := by
    unfold pyStripL; rw [List.reverse_reverse]
  calc pyStripL (pyStripL l)
      = (((pyStripL l).dropWhile isPyWs).reverse.dropWhile isPyWs).reverse := rfl
    _ = ((pyStripL l).reverse.dropWhile isPyWs).reverse := by rw [hdw]
    _ = (((l.dropWhile isPyWs).reverse.dropWhile isPyWs).dropWhile isPyWs).reverse := by
        rw [hrev]
    _ = ((l.dropWhile isPyWs).reverse.dropWhile isPyWs).reverse := by
        rw [List.dropWhile_idempotent]
    _ = pyStripL l := rfl

theorem limpiarL_chars {l : List Char} {c : Char} (hc : c ∈ limpiarL l) :
    c.toNat < 128 ∧ pyLowerChar c = c := by
  have hc' : c ∈ pyStripL ((((pyStripL l).flatMap nfdChar).filter
      (fun c => decide (c.toNat < 128))).map pyLowerChar) := hc
  have hm : c ∈ (((pyStripL l).flatMap nfdChar).filter
      (fun c => decide (c.toNat < 128))).map pyLowerChar :=
    (pyStripL_sublist _).subset hc'
  obtain ⟨d, hd, rfl⟩ := List.mem_map.mp hm
  have hdf := List.mem_filter.mp hd
  have hdA : d.toNat < 128 := of_decide_eq_true hdf.2
  exact ⟨pyLowerChar_ascii hdA, pyLowerChar_idem d⟩

theorem limpiarL_idem (l : List Char) : limpiarL (limpiarL l) = limpiarL l := by
  have hstrip : pyStripL (limpiarL l) = limpiarL l := by
    unfold limpiarL
    exact pyStripL_idem _
  have hflat : (limpiarL l).flatMap nfdChar = limpiarL l :=
    flatMap_id_of _ _ (fun c hc => nfdChar_ascii (limpiarL_chars hc).1)
  have hfilt : (limpiarL l).filter (fun c => decide (c.toNat < 128)) = limpiarL l :=
    List.filter_eq_self.mpr (fun c hc => decide_eq_true (limpiarL_chars hc).1)
  have hmap : (limpiarL l).map pyLowerChar = limpiarL l :=
    map_id_of _ _ (fun c hc => (limpiarL_chars hc).2)
  show pyStripL ((((pyStripL (limpiarL l)).flatMap nfdChar).filter
      (fun c => decide (c.toNat < 128))).map pyLowerChar) = limpiarL l
  rw [hstrip, hflat, hfilt, hmap, hstrip]

/-- Claim C7: `normalizeText` (source: `limpiar_texto`) is idempotent on
every text value — applying it twice gives the same result as applying it
once. -/
theorem claim_C7 (s : String) :
    limpiar_texto (limpiar_texto s) = limpiar_texto s := by
  unfold limpiar_texto
  exact congrArg String.mk (limpiarL_idem s.data)

/-- Claim C10: for every string input, the output of `limpiar_texto`
consists only of ASCII characters; non-ASCII code points without an
ASCII-based canonical decomposition are deleted outright ("ñ" becomes
"n", while "€" and CJK text normalize to the empty string). -/
theorem claim_C10 :
    (∀ (s : String),
      ((limpiar_texto s).data.all (fun c => decide (c.toNat < 128))) = true)
    ∧ limpiar_texto "ñ" = "n" ∧ limpiar_texto "€" = ""
    ∧ limpiar_texto "日本" = "" := by
  refine ⟨?_, by decide, by decide, by decide⟩
  intro s
  rw [List.all_eq_true]
  intro c hc
  exact decide_eq_true (limpiarL_chars (l := s.data) hc).1

theorem lookup_bump_self : ∀ (t : List (String × Nat)) (v : String),
    (bump t v).lookup v = some (((t.lookup v).getD 0) + 1) := by
  intro t v
  induction t with
  | nil => simp [bump, List.lookup]
  | cons p rest ih =>
    obtain ⟨k, n⟩ := p
    by_cases hk : k = v
    · subst hk
      simp [bump, List.lookup_cons]
    · have hbk : (v == k) = false := by
        simpa using fun h => hk h.symm
      simp [bump, hk, List.lookup_cons, hbk, ih]

theorem lookup_bump_ne : ∀ (t : List (String × Nat)) (v w : String), w ≠ v →
    (bump t v).lookup w = t.lookup w := by
  intro t v w hwv
  induction t with
  | nil =>
    have hbk : (w == v) = false := by simpa using hwv
    simp [bump, List.lookup, hbk]
  | cons p rest ih =>
    obtain ⟨k, n⟩ := p
    by_cases hk : k = v
    · subst hk
      have hbk : (w == k) = false := by simpa using hwv
      simp [bump, List.lookup_cons, hbk]
    · simp [bump, hk, List.lookup_cons, ih]

theorem tally_foldl_lookup : ∀ (l : List String) (t : List (String × Nat)) (v : String),
    ((l.foldl bump t).lookup v).getD 0 = ((t.lookup v).getD 0) + l.count v := by
  intro l
  induction l with
  | nil => intro t v; simp
  | cons a l ih =>
    intro t v
    rw [List.foldl_cons, ih (bump t a) v]
    by_cases hav : a = v
    · subst hav
      rw [lookup_bump_self]
      rw [List.count_cons]
      simp
      omega
    · rw [lookup_bump_ne t a v (fun h => hav h.symm)]
      rw [List.count_cons]
      have : (a == v) = false := by simpa using hav
      simp [this]

theorem tally_foldl_isSome : ∀ (l : List String) (t : List (String × Nat)) (v : String),
    v ∈ l ∨ ((t.lookup v).isSome = true) →
    ((l.foldl bump t).lookup v).isSome = true := by
  intro l
  induction l with
  | nil =>
    intro t v h
    rcases h with h | h
    · cases h
    · exact h
  | cons a l ih =>
    intro t v h
    rw [List.foldl_cons]
    rcases h with h | h
    · rcases List.mem_cons.mp h with rfl | hmem
      · refine ih (bump t v) v (Or.inr ?_)
        rw [lookup_bump_self]
        rfl
      · exact ih (bump t a) v (Or.inl hmem)
    · by_cases hav : v = a
      · subst hav
        refine ih (bump t v) v (Or.inr ?_)
        rw [lookup_bump_self]
        rfl
      · refine ih (bump t a) v (Or.inr ?_)
        rw [lookup_bump_ne t a v hav]
        exact h

theorem tally_mem_count {l : List String} {v : String} (h : v ∈ l) :
    (v, l.count v) ∈ tally l := by
  have h1 : ((tally l).lookup v).getD 0 = l.count v := by
    have := tally_foldl_lookup l [] v
    simpa [tally] using this
  have h2 : ((tally l).lookup v).isSome = true :=
    tally_foldl_isSome l [] v (Or.inl h)
  obtain ⟨n, hn⟩ := Option.isSome_iff_exists.mp h2
  have heq : n = l.count v := by
    have := h1
    rw [hn] at this
    simpa using this
  subst heq
  exact lookup_mem _ _ _ hn

theorem not_mem_keys_of_lookup_none {α : Type} {β : Type} [BEq α] [LawfulBEq α] :
    ∀ (t : List (α × β)) (a : α), t.lookup a = none → a ∉ t.map Prod.fst := by
  intro t
  induction t with
  | nil => intro a _ h; cases h
  | cons p rest ih =>
    intro a hl hm
    obtain ⟨k, v⟩ := p
    rw [List.lookup_cons] at hl
    rcases List.mem_cons.mp hm with h | h
    · rw [h] at hl
      simp at hl
    · by_cases hk : (a == k) = true
      · simp [hk] at hl
      · simp only [Bool.not_eq_true] at hk
        simp only [hk] at hl
        exact ih a hl h

theorem bump_keys : ∀ (t : List (String × Nat)) (v : String),
    (bump t v).map Prod.fst =
      if (t.lookup v).isSome then t.map Prod.fst else t.map Prod.fst ++ [v] := by
  intro t v
  induction t with
  | nil => simp [bump, List.lookup]
  | cons p rest ih =>
    obtain ⟨k, n⟩ := p
    by_cases hk : k = v
    · subst hk
      simp [bump, List.lookup_cons]
    · have hbk : (v == k) = false := by
        simpa using fun h => hk h.symm
      simp only [bump, if_neg hk, List.map_cons, List.lookup_cons, hbk, ih]
      by_cases hs : (rest.lookup v).isSome = true
      · simp [hs]
      · simp only [Bool.not_eq_true] at hs
        simp [hs]

theorem tally_keys_nodup : ∀ (l : List String) (t : List (String × Nat)),
    (t.map Prod.fst).Nodup → ((l.foldl bump t).map Prod.fst).Nodup := by
  intro l
  induction l with
  | nil => intro t h; exact h
  | cons a l ih =>
    intro t h
    rw [List.foldl_cons]
    apply ih
    rw [bump_keys]
    cases hs : (t.lookup a).isSome with
    | true => simpa using h
    | false =>
      have hnone : t.lookup a = none := by
        cases hl : t.lookup a with
        | none => rfl
        | some b => rw [hl] at hs; cases hs
      have hnm : a ∉ t.map Prod.fst := not_mem_keys_of_lookup_none t a hnone
      have hperm : (t.map Prod.fst ++ [a]).Perm (a :: t.map Prod.fst) :=
        List.perm_append_singleton a _
      rw [if_neg Bool.false_ne_true, hperm.nodup_iff, List.nodup_cons]
      exact ⟨hnm, h⟩

theorem insertDesc_perm (p : String × Nat) : ∀ (t : List (String × Nat)),
    (insertDesc p t).Perm (p :: t) := by
  intro t
  induction t with
  | nil => exact List.Perm.refl _
  | cons q rest ih =>
    show (if q.2 < p.2 then p :: q :: rest else q :: insertDesc p rest).Perm _
    by_cases hq : q.2 < p.2
    · rw [if_pos hq]
    · rw [if_neg hq]
      exact (ih.cons q).trans (List.Perm.swap p q rest)

theorem sortCountDesc_foldl_perm : ∀ (t acc : List (String × Nat)),
    (t.foldl (fun acc p => insertDesc p acc) acc).Perm (t ++ acc) := by
  intro t
  induction t with
  | nil => intro acc; simp
  | cons p rest ih =>
    intro acc
    rw [List.foldl_cons]
    refine (ih (insertDesc p acc)).trans ?_
    have h1 : (rest ++ insertDesc p acc).Perm (rest ++ (p :: acc)) :=
      List.Perm.append_left rest (insertDesc_perm p acc)
    exact h1.trans List.perm_middle

theorem valueCounts_perm_tally (l : List String) :
    (valueCounts l).Perm (tally l) := by
  have h := sortCountDesc_foldl_perm (tally l) []
  simpa [valueCounts, sortCountDesc] using h

/-- The five-record example table from claim C1 (incident-type values
"Caída", "caida", "CAÍDA", "Quemadura", "caida"). -/
def tablaC1 : List Record :=
  [⟨"Caída", some "no", "", ""⟩, ⟨"caida", some "no", "", ""⟩,
   ⟨"CAÍDA", some "no", "", ""⟩, ⟨"Quemadura", some "no", "", ""⟩,
   ⟨"caida", some "no", "", ""⟩]

/-- Claim C1 counterexample: on the claim's own five-record example the
overall count table of `main` keeps the three casings of "caída"
separate — it is `value_counts()` on the raw column, with no
`limpiar_texto` folding — so there is no entry labelled "Caída" with
count 3; the actual table is caida↦2, Caída↦1, CAÍDA↦1, Quemadura↦1. -/
theorem claim_C1_cex :
    totalConteo (runAnalysis false none none false "SM" ⟨2026, 10, 12⟩ tablaC1) =
      some [("caida", 2), ("Caída", 1), ("CAÍDA", 1), ("Quemadura", 1)] := by
  decide

/-- Claim C1 (amended): the overall count table groups the
IncidentType-role values by exact raw string equality — no
case/whitespace/accent folding — with exactly one entry per distinct raw
value carrying its exact occurrence count. -/
theorem claim_C1 (recs : List Record) (incluirSM : Bool) (valorSM : String)
    (now : PDate) (v : String)
    (hne : recs ≠ []) (hv : v ∈ recs.map (fun r => r.incidente)) :
    totalConteo (runAnalysis false none none incluirSM valorSM now recs) =
      some (valueCounts (recs.map (fun r => r.incidente)))
    ∧ (v, (recs.map (fun r => r.incidente)).count v) ∈
        valueCounts (recs.map (fun r => r.incidente))
    ∧ ((valueCounts (recs.map (fun r => r.incidente))).map Prod.fst).Nodup := by
  refine ⟨?_, (valueCounts_perm_tally _).mem_iff.mpr (tally_mem_count hv), ?_⟩
  · simp only [runAnalysis]
    rw [if_neg hne]
    cases incluirSM with
    | false => simp [totalConteo, List.lookup_cons]
    | true => simp [totalConteo, List.lookup_cons]
  · exact ((valueCounts_perm_tally _).map Prod.fst).nodup_iff.mpr
      (tally_keys_nodup _ [] (by simp))

/-- Witness for claim C1 at the claim's example table. -/
theorem claim_C1_witness :
    totalConteo (runAnalysis false none none false "SM" ⟨2026, 10, 12⟩ tablaC1) =
      some (valueCounts (tablaC1.map (fun r => r.incidente)))
    ∧ ("Caída", (tablaC1.map (fun r => r.incidente)).count "Caída") ∈
        valueCounts (tablaC1.map (fun r => r.incidente))
    ∧ ((valueCounts (tablaC1.map (fun r => r.incidente))).map Prod.fst).Nodup :=
  claim_C1 tablaC1 false "SM" ⟨2026, 10, 12⟩ "Caída" (by decide) (by decide)

/-- Two records, none matching the "SM" category: the matched partition
is empty. -/
def tablaC2 : List Record :=
  [⟨"Caída", some "si", "", "OTRO"⟩, ⟨"Golpe", some "no", "", "otro"⟩]

/-- Claim C2 counterexample: with the category split active and the
matched partition empty, the result carries only TWO count tables (the
empty partition's table is omitted by `if not df_sm.empty`), not three,
although it does carry three transfer-summary entries. -/
theorem claim_C2_cex :
    (resultConteos (runAnalysis false none none true "SM" ⟨2026, 10, 12⟩ tablaC2)).map
        List.length = some 2
    ∧ (resultTraslados (runAnalysis false none none true "SM" ⟨2026, 10, 12⟩ tablaC2)).map
        List.length = some 3 := by
  decide

/-- Claim C2 (amended): when the category split is active and either
partition has zero records, no error occurs and the transfer summary
still carries three entries with a zero for the empty partition, but the
empty partition's count table is omitted: the result carries exactly two
count tables (the overall one and the non-empty partition's, which
equals the whole filtered table). -/
theorem claim_C2 (valorSM : String) (now : PDate) (recs : List Record)
    (hne : recs ≠ []) :
    (dfSMpart valorSM recs = [] →
      runAnalysis false none none true valorSM now recs =
        .ok [("Total de Incidentes", valueCounts (recs.map (fun r => r.incidente))),
             ("Incidentes atendidos por Operativa Médica Protección Civil",
              valueCounts (recs.map (fun r => r.incidente)))]
            [("Total de traslados", countTraslados recs),
             ("Traslados por Servicios Médicos", 0),
             ("Traslados por Operativa Médica Protección Civil", countTraslados recs)])
    ∧ (dfNoSMpart valorSM recs = [] →
      runAnalysis false none none true valorSM now recs =
        .ok [("Total de Incidentes", valueCounts (recs.map (fun r => r.incidente))),
             ("Incidentes atendidos por Servicios Médicos",
              valueCounts (recs.map (fun r => r.incidente)))]
            [("Total de traslados", countTraslados recs),
             ("Traslados por Servicios Médicos", countTraslados recs),
             ("Traslados por Operativa Médica Protección Civil", 0)]) := by
  constructor
  · intro hempty
    have hno : dfNoSMpart valorSM recs = recs := by
      unfold dfNoSMpart
      apply List.filter_eq_self.mpr
      intro r hr
      have := List.filter_eq_nil_iff.mp hempty r hr
      simpa using this
    simp only [runAnalysis]
    rw [if_neg hne]
    rw [hempty, hno]
    simp [hne, countTraslados]
  · intro hempty
    have hsm : dfSMpart valorSM recs = recs := by
      unfold dfSMpart
      apply List.filter_eq_self.mpr
      intro r hr
      have := List.filter_eq_nil_iff.mp hempty r hr
      simpa using this
    simp only [runAnalysis]
    rw [if_neg hne]
    rw [hempty, hsm]
    simp [hne, countTraslados]

/-- Two records that both match the "SM" category (after strip/upper):
the unmatched partition is empty. -/
def tablaC2b : List Record :=
  [⟨"Caída", some "si", "", " sm "⟩, ⟨"Golpe", some "no", "", "SM"⟩]

/-- Witness for claim C2 at two concrete two-record tables: one with an
empty matched partition and one with an empty unmatched partition. -/
theorem claim_C2_witness :
    (runAnalysis false none none true "SM" ⟨2026, 10, 12⟩ tablaC2 =
      .ok [("Total de Incidentes", valueCounts (tablaC2.map (fun r => r.incidente))),
           ("Incidentes atendidos por Operativa Médica Protección Civil",
            valueCounts (tablaC2.map (fun r => r.incidente)))]
          [("Total de traslados", countTraslados tablaC2),
           ("Traslados por Servicios Médicos", 0),
           ("Traslados por Operativa Médica Protección Civil", countTraslados tablaC2)])
    ∧ (runAnalysis false none none true "SM" ⟨2026, 10, 12⟩ tablaC2b =
      .ok [("Total de Incidentes", valueCounts (tablaC2b.map (fun r => r.incidente))),
           ("Incidentes atendidos por Servicios Médicos",
            valueCounts (tablaC2b.map (fun r => r.incidente)))]
          [("Total de traslados", countTraslados tablaC2b),
           ("Traslados por Servicios Médicos", countTraslados tablaC2b),
           ("Traslados por Operativa Médica Protección Civil", 0)]) :=
  ⟨(claim_C2 "SM" ⟨2026, 10, 12⟩ tablaC2 (by decide)).1 (by decide),
   (claim_C2 "SM" ⟨2026, 10, 12⟩ tablaC2b (by decide)).2 (by decide)⟩

theorem length_filter_partition {α : Type} (p : α → Bool) :
    ∀ (l : List α),
      (l.filter p).length + (l.filter (fun x => !p x)).length = l.length := by
  intro l
  induction l with
  | nil => rfl
  | cons a t ih =>
    cases ha : p a with
    | true => simp [List.filter_cons, ha]; omega
    | false => simp [List.filter_cons, ha]; omega

theorem length_filter_and_partition {α : Type} (p q : α → Bool) :
    ∀ (l : List α),
      (l.filter (fun a => q a && p a)).length
        + (l.filter (fun a => q a && !p a)).length
        = (l.filter q).length := by
  intro l
  induction l with
  | nil => rfl
  | cons a t ih =>
    cases ha : p a with
    | true =>
      cases hq : q a with
      | true => simp [List.filter_cons, ha, hq]; omega
      | false => simp [List.filter_cons, ha, hq]; omega
    | false =>
      cases hq : q a with
      | true => simp [List.filter_cons, ha, hq]; omega
      | false => simp [List.filter_cons, ha, hq]; omega

theorem length_filter_filter_partition {α : Type} (p q : α → Bool) (l : List α) :
    ((l.filter p).filter q).length + ((l.filter (fun x => !p x)).filter q).length
      = (l.filter q).length := by
  rw [List.filter_filter, List.filter_filter]
  exact length_filter_and_partition p q l

/-- Claim C9: the category-split partition is exhaustive and disjoint —
every record of the filtered table lands in exactly one of `df_sm` /
`df_no_sm`, so the two partition sizes sum to the filtered table's size
and the two per-partition transfer counts sum to the overall transfer
count (null category cells participate through their `astype(str)`
string form). -/
theorem claim_C9 (valorSM : String) (recs : List Record) :
    (dfSMpart valorSM recs).length + (dfNoSMpart valorSM recs).length = recs.length
    ∧ countTraslados (dfSMpart valorSM recs) + countTraslados (dfNoSMpart valorSM recs)
        = countTraslados recs := by
  constructor
  · exact length_filter_partition _ recs
  · exact length_filter_filter_partition _ _ recs

theorem pow10Q_pos (e : Int) : 0 < pow10Q e := by
  cases e with
  | ofNat n =>
    simp only [pow10Q]
    exact pow_pos (by norm_num) n
  | negSucc n =>
    simp only [pow10Q]
    exact div_pos one_pos (pow_pos (by norm_num) (n + 1))

theorem pyFloatGtZero_correct (v : DecMant) :
    pyFloatGtZero (.num v) = true ↔ 0 < decValQ v := by
  obtain ⟨neg, mant, exp⟩ := v
  cases neg with
  | false =>
    have hv : decValQ ⟨false, mant, exp⟩ = (mant : ℚ) * pow10Q exp := rfl
    rw [hv, mul_pos_iff_of_pos_right (pow10Q_pos exp), Nat.cast_pos]
    simp [pyFloatGtZero]
  | true =>
    have hnn : 0 ≤ (mant : ℚ) * pow10Q exp :=
      mul_nonneg (Nat.cast_nonneg _) (le_of_lt (pow10Q_pos _))
    have hv : decValQ ⟨true, mant, exp⟩ = -((mant : ℚ) * pow10Q exp) := rfl
    constructor
    · intro h
      simp [pyFloatGtZero] at h
    · intro h
      rw [hv, neg_pos] at h
      exact absurd h (not_lt.mpr hnn)

/-- Claim C6: `es_traslado_afirmativo` returns true for "Sí", "SI", "1",
"true" and "2", false for "no", "0", the empty string and null; and for
every input whose trimmed lower-cased form parses as a number, the result
equals "that number is strictly greater than zero", regardless of token
membership (`pyFloatGtZero_correct` ties the Boolean to the literal's
rational value). -/
theorem claim_C6 :
    (es_traslado_afirmativo (some "Sí") = true
     ∧ es_traslado_afirmativo (some "SI") = true
     ∧ es_traslado_afirmativo (some "1") = true
     ∧ es_traslado_afirmativo (some "true") = true
     ∧ es_traslado_afirmativo (some "2") = true
     ∧ es_traslado_afirmativo (some "no") = false
     ∧ es_traslado_afirmativo (some "0") = false
     ∧ es_traslado_afirmativo (some "") = false
     ∧ es_traslado_afirmativo none = false)
    ∧ ∀ (s : String) (f : PyFloat),
        pyFloatParse ((pyStripL s.data).map pyLowerChar) = some f →
        es_traslado_afirmativo (some s) = pyFloatGtZero f := by
  refine ⟨by decide, ?_⟩
  intro s f h
  simp only [es_traslado_afirmativo]
  rw [h]
  cases hgt : pyFloatGtZero f with
  | true => simp [hgt]
  | false =>
    simp only [hgt, if_false, Bool.false_eq_true]
    apply decide_eq_false
    intro hmem
    by_cases h1 : (pyStripL s.data).map pyLowerChar = "1".data
    · rw [h1] at h
      have hone : pyFloatParse ("1".data) = some (PyFloat.num ⟨false, 1, 0⟩) := by decide
      rw [hone] at h
      injection h with he
      rw [← he] at hgt
      exact absurd hgt (by decide)
    · have htok : ∀ u ∈ afirmativos, u ≠ "1".data → pyFloatParse u = none := by decide
      rw [htok _ hmem h1] at h
      exact Option.noConfusion h

/-- Witness for claim C6 at the numeric input "2". -/
theorem claim_C6_witness :
    pyFloatParse ((pyStripL "2".data).map pyLowerChar) = some (PyFloat.num ⟨false, 2, 0⟩)
    ∧ es_traslado_afirmativo (some "2") = pyFloatGtZero (PyFloat.num ⟨false, 2, 0⟩) :=
  ⟨by decide, claim_C6.2 "2" (PyFloat.num ⟨false, 2, 0⟩) (by decide)⟩

/-- Claim C3 counterexample: for "05/12/2026" with the clock at
2025-06-15 the first pattern that parses is `%d/%m/%Y`, giving
2026-12-05, which fails the plausibility window — so the claim as stated
predicts null — but the loop keeps trying later patterns and `%m/%d/%Y`
returns 2026-05-12. -/
theorem claim_C3_cex :
    claimParseDate "05/12/2026" ⟨2025, 6, 15⟩ = none
    ∧ parsear_fecha "05/12/2026" ⟨2025, 6, 15⟩ = some ⟨2026, 5, 12⟩ := by
  decide

theorem tryFormats_eq_findSome : ∀ (fmts : List DFmt) (now : PDate) (t : List Char),
    tryFormats now fmts t = fmts.findSome? (fun fmt =>
      match tryFormat fmt t with
      | some d => if razonable now d then some d else none
      | none => none) := by
  intro fmts now t
  induction fmts with
  | nil => rfl
  | cons fmt rest ih =>
    rw [List.findSome?_cons]
    simp only [tryFormats]
    cases hf : tryFormat fmt t with
    | none => simpa using ih
    | some d =>
      by_cases hr : razonable now d = true
      · simp [hr]
      · simp [hr, ih]

/-- Claim C3 (amended): `parsear_fecha` tries its patterns in one fixed
priority order and accepts the FIRST pattern whose parse exists AND
passes the plausibility window (year ≥ 2000, not more than one year past
`now`); a first-matching parse that fails the window does not force null
— later patterns are still tried — and null results exactly when no
pattern yields an acceptable parse (a value matching no pattern also
yields null, with no error raised). -/
theorem claim_C3 (s : String) (now : PDate) :
    parsear_fecha s now =
      if s = "" then none
      else specParsePrioridad now (collapseWs (pyStripL s.data)) := by
  unfold parsear_fecha specParsePrioridad
  by_cases hs : s = ""
  · simp [hs]
  · simp only [if_neg hs]
    exact tryFormats_eq_findSome formatos now _

theorem tryFormats_of_unique : ∀ (fmts : List DFmt) (t : List Char) (now d : PDate),
    (∀ fmt ∈ fmts, (tryFormat fmt t).all (fun e => e == d) = true) →
    (∃ fmt ∈ fmts, tryFormat fmt t = some d) →
    razonable now d = true →
    tryFormats now fmts t = some d := by
  intro fmts
  induction fmts with
  | nil =>
    intro t now d _ hex _
    rcases hex with ⟨fmt, hmem, _⟩
    cases hmem
  | cons fmt rest ih =>
    intro t now d hall hex hr
    simp only [tryFormats]
    cases hf : tryFormat fmt t with
    | some e =>
      have he : e = d := by
        have h := hall fmt (List.mem_cons_self _ _)
        rw [hf] at h
        simpa using h
      subst he
      simp [hr]
    | none =>
      refine ih t now d (fun g hg => hall g (List.mem_cons_of_mem _ hg)) ?_ hr
      rcases hex with ⟨g, hmem, hgd⟩
      rcases List.mem_cons.mp hmem with rfl | hg
      · rw [hf] at hgd
        cases hgd
      · exact ⟨g, hg, hgd⟩

/-- Claim C8: for a date within the plausibility window, every supported
textual rendering that is unambiguous among the patterns (all successful
pattern parses agree on the date) recovers that same date; and the
claim's three example renderings of March 5, 2024 all parse to it. -/
theorem claim_C8 :
    (∀ (s : String) (d now : PDate),
      s ≠ "" →
      (∀ fmt ∈ formatos,
        (tryFormat fmt (collapseWs (pyStripL s.data))).all (fun e => e == d) = true) →
      (∃ fmt ∈ formatos, tryFormat fmt (collapseWs (pyStripL s.data)) = some d) →
      razonable now d = true →
      parsear_fecha s now = some d)
    ∧ parsear_fecha "05/03/2024" ⟨2026, 10, 12⟩ = some ⟨2024, 3, 5⟩
    ∧ parsear_fecha "2024-03-05" ⟨2026, 10, 12⟩ = some ⟨2024, 3, 5⟩
    ∧ parsear_fecha "05.03.2024" ⟨2026, 10, 12⟩ = some ⟨2024, 3, 5⟩ := by
  refine ⟨?_, by decide, by decide, by decide⟩
  intro s d now hs hall hex hr
  unfold parsear_fecha
  rw [if_neg hs]
  exact tryFormats_of_unique formatos _ now d hall hex hr

/-- Witness for claim C8 at the dot-separated rendering, the one parsed
by exactly one pattern. -/
theorem claim_C8_witness :
    parsear_fecha "05.03.2024" ⟨2026, 10, 12⟩ = some ⟨2024, 3, 5⟩ :=
  claim_C8.1 "05.03.2024" ⟨2024, 3, 5⟩ ⟨2026, 10, 12⟩ (by decide) (by decide)
    (by decide) (by decide)

/-- Claim C4: with an active date range, the empty-result outcome occurs
exactly when no record's date cell parses to a date inside the inclusive
range (in which case no count table or transfer summary is produced —
the outcome is a constructor distinct from every `ok` result); and when
records survive, aggregation runs exactly over the surviving records. -/
theorem claim_C4 (a b now : PDate) (table : List Record)
    (incluirSM : Bool) (valorSM : String) :
    (runAnalysis true (some a) (some b) incluirSM valorSM now table = .emptyResult
      ↔ table.filter (inRange now a b) = [])
    ∧ (table.filter (inRange now a b) ≠ [] →
        runAnalysis true (some a) (some b) false valorSM now table =
          .ok [("Total de Incidentes",
                valueCounts ((table.filter (inRange now a b)).map (fun r => r.incidente)))]
              [("Total de traslados", countTraslados (table.filter (inRange now a b)))]) := by
  constructor
  · simp only [runAnalysis]
    by_cases hk : table.filter (inRange now a b) = []
    · simp [hk]
    · rw [if_neg hk]
      constructor
      · intro h
        cases incluirSM <;> simp at h
      · intro h
        exact absurd h hk
  · intro hk
    simp only [runAnalysis]
    rw [if_neg hk]
    simp

/-- The spec's date-filter example table: five records, of which exactly
two carry dates inside January 2024 (one out-of-range February date, one
out-of-range 2023 date, one unparseable value). -/
def tablaC4 : List Record :=
  [⟨"A", some "si", "15/01/2024", ""⟩, ⟨"B", some "no", "20/01/2024", ""⟩,
   ⟨"C", some "si", "15/02/2024", ""⟩, ⟨"D", some "1", "01/01/2023", ""⟩,
   ⟨"E", some "x", "garbage", ""⟩]

/-- Witness for claim C4 at the spec's 2-of-5-in-range example. -/
theorem claim_C4_witness :
    runAnalysis true (some ⟨2024, 1, 1⟩) (some ⟨2024, 1, 31⟩) false "SM" ⟨2026, 10, 12⟩
        tablaC4 =
      .ok [("Total de Incidentes",
            valueCounts ((tablaC4.filter (inRange ⟨2026, 10, 12⟩ ⟨2024, 1, 1⟩ ⟨2024, 1, 31⟩)).map
              (fun r => r.incidente)))]
          [("Total de traslados",
            countTraslados (tablaC4.filter (inRange ⟨2026, 10, 12⟩ ⟨2024, 1, 1⟩ ⟨2024, 1, 31⟩)))] :=
  (claim_C4 ⟨2024, 1, 1⟩ ⟨2024, 1, 31⟩ ⟨2026, 10, 12⟩ tablaC4 false "SM").2 (by decide)

/-- A nonempty table whose two records both carry valid January 2024
dates. -/
def tablaC5 : List Record :=
  [⟨"Caída", some "si", "15/01/2024", ""⟩, ⟨"Golpe", some "no", "20/01/2024", ""⟩]

/-- Claim C5 exhibit: entering start 02/01/2024 and end 01/01/2024 only
displays the inverted-range error while both range variables stay
assigned (`startAfterEnd` still carries both dates into the variable
state), and pressing the generate button then runs the date filter with
that inverted range — the nonempty table is filtered down to nothing and
the flow ends in the empty-result error.  The range is therefore NOT
rejected before use, refuting the claim's guarantee on the code as
written. -/
theorem claim_C5 :
    parseRange "02/01/2024" "01/01/2024" =
      .startAfterEnd ⟨2024, 1, 2⟩ ⟨2024, 1, 1⟩
    ∧ rangeVars (parseRange "02/01/2024" "01/01/2024") =
        (some ⟨2024, 1, 2⟩, some ⟨2024, 1, 1⟩)
    ∧ tablaC5 ≠ []
    ∧ fullFlow true "02/01/2024" "01/01/2024" false "SM" ⟨2026, 10, 12⟩ tablaC5 =
        .emptyResult := by
  decide
